import Mathlib

/-!
Verification development for the Comput3 ComfyUI setup script
(`comput3-ai-comfyui-setup.py`).

The script drives a remote ComfyUI-Manager API through retried HTTP calls
and polling loops.  We embed the pure decision logic of the script:

* the catalog pickers `pick_node` / `pick_model` with their `normalize`,
  `truthy` and substring helpers;
* the queue-idle / model-installed / readiness polling predicates,
  with real time abstracted into a discrete poll budget
  (`budget = timeout_s / poll_s`, e.g. 180s / 1.5s = 120 polls);
* the enqueue retry loop shared by the install operations, with the
  sequence of HTTP responses made explicit as an oracle `Nat → Nat × String`
  (attempt index ↦ status code and body);
* the manager-URL install loop, the downloader-workflow fallback decision,
  and the reboot-request retry phase.

Network responses are inputs; sleeping and logging have no observable
effect on the modelled results and are dropped.
-/

namespace Comput3Setup

/-- A loosely typed JSON scalar, the value space the script's helpers
`truthy` / builtin Python truthiness / `int(...)` operate on.
`jnull` also stands for an absent key fetched via `dict.get`. -/
inductive JVal where
  | jnull : JVal
  | jbool : Bool → JVal
  | jnum : Int → JVal
  | jstr : String → JVal
deriving DecidableEq

/-- The word set of the script's `truthy` helper. -/
def TRUTHY_WORDS : List String :=
  ["true", "1", "yes", "installed", "ok", "enabled", "active", "success", "completed", "done"]

/-- Split a character list into maximal runs of non-whitespace characters
(char-level rendering of Python `re.split`/`strip` behaviour used by
`normalize`).  `cur` is the reversed current token accumulator. -/
def split_ws_aux : List Char → List Char → List (List Char)
  | cur, [] => if cur.isEmpty then [] else [cur.reverse]
  | cur, c :: rest =>
    if c.isWhitespace then
      if cur.isEmpty then split_ws_aux [] rest
      else cur.reverse :: split_ws_aux [] rest
    else split_ws_aux (c :: cur) rest

/-- Join tokens with single spaces. -/
def join_ws : List (List Char) → List Char
  | [] => []
  | [w] => w
  | w :: x :: ws => w ++ (' ' :: join_ws (x :: ws))

/-- The script's `normalize(x)`: `None` becomes `""`; otherwise lowercase,
strip, and collapse internal whitespace runs to single spaces
(`re.sub(r"\s+", " ", str(x).strip().lower())`). -/
def normalize : Option String → String
  | none => ""
  | some s => String.mk (join_ws (split_ws_aux [] (s.data.map Char.toLower)))

/-- The script's `truthy(x)` helper: bools pass through, numbers compare
against zero, strings are normalized and looked up in a word set, and
everything else (including `None`) is falsy. -/
def truthy : JVal → Bool
  | .jbool b => b
  | .jnum n => n != 0
  | .jstr s => TRUTHY_WORDS.contains (normalize (some s))
  | .jnull => false

/-- Python builtin truthiness of a JSON scalar (used by `not s.get(...)`
in `wait_queue_idle`, distinct from the `truthy` helper). -/
def py_truthy : JVal → Bool
  | .jnull => false
  | .jbool b => b
  | .jnum n => n != 0
  | .jstr s => s != ""

/-- Python truthiness of a `dict.get` result (`None` for a missing key). -/
def py_truthy_opt : Option JVal → Bool
  | none => false
  | some v => py_truthy v

/-- Python `int(x)` on a JSON scalar: `none` when it raises.
Numeric strings are accepted like Python's decimal-literal parsing. -/
def py_int : JVal → Option Int
  | .jnum n => some n
  | .jbool b => some (if b then 1 else 0)
  | .jstr s => s.trim.toInt?
  | .jnull => none

/-- Does `hay` begin with `pat`? -/
def chars_begins : List Char → List Char → Bool
  | [], _ => true
  | _ :: _, [] => false
  | a :: as, b :: bs => a == b && chars_begins as bs

/-- Does `pat` occur contiguously inside `hay`? -/
def chars_within (pat : List Char) : List Char → Bool
  | [] => chars_begins pat []
  | c :: rest => chars_begins pat (c :: rest) || chars_within pat rest

/-- Python `hay.find(pat) >= 0`: substring containment (true for the
empty pattern, matching `find`'s result `0`). -/
def strContains (hay pat : String) : Bool := chars_within pat.data hay.data

/-- Python's `a or b` over optional strings as used for
`m.get("repository") or m.get("repo") or m.get("pkg_name")`:
first operand wins unless it is `None` or empty. -/
def py_or_str (a b : Option String) : Option String :=
  match a with
  | some s => if s == "" then b else some s
  | none => b

/-- One entry of the node catalog, restricted to the keys `pick_node`
reads (`dict.get` misses are `none` / `jnull`). -/
structure NodeEntry where
  id : Option String
  title : Option String
  repository : Option String
  repo : Option String
  pkg_name : Option String
  state : Option String
  installed : JVal
  is_installed : JVal
deriving DecidableEq

/-- One entry of the model catalog, restricted to the keys `pick_model`
and `wait_model_installed` read. -/
structure ModelEntry where
  filename : Option String
  name : Option String
  installed : JVal
deriving DecidableEq

/-- `mid == q or title == q` in `pick_node`: exact match on the
normalized id or title. -/
def isExactNode (q : String) (m : NodeEntry) : Bool :=
  normalize m.id == q || normalize m.title == q

/-- The normalized repository field of a node entry:
`normalize(m.get("repository") or m.get("repo") or m.get("pkg_name"))`. -/
def nodeRepoField (m : NodeEntry) : String :=
  normalize (py_or_str (py_or_str m.repository m.repo) m.pkg_name)

/-- The not-installed bonus condition of `pick_node`:
`state == "not-installed" or (state == "" and not (truthy(installed) or truthy(is_installed)))`. -/
def nodeStateBonus (m : NodeEntry) : Bool :=
  normalize m.state == "not-installed" ||
    (normalize m.state == "" && !(truthy m.installed || truthy m.is_installed))

/-- The score `pick_node` assigns to one catalog entry for normalized
query `q`: 10000 for an exact id/title match, otherwise additive
substring scores 400/350/250, plus a +50 not-installed bonus. -/
def nodeScore (q : String) (m : NodeEntry) : Int :=
  (if isExactNode q m then (10000 : Int)
   else
     (if q != "" && strContains (normalize m.id) q then (400 : Int) else 0)
       + (if q != "" && strContains (normalize m.title) q then (350 : Int) else 0)
       + (if q != "" && strContains (nodeRepoField m) q then (250 : Int) else 0))
  + (if nodeStateBonus m then (50 : Int) else 0)

/-- Normalized filename of a model entry. -/
def modelFn (m : ModelEntry) : String := normalize m.filename

/-- Normalized name of a model entry. -/
def modelNm (m : ModelEntry) : String := normalize m.name

/-- `fn == q or nm == q` in `pick_model`. -/
def isExactModel (q : String) (m : ModelEntry) : Bool :=
  modelFn m == q || modelNm m == q

/-- `fn == q or fn.find(q) >= 0`: the filename matches the query. -/
def modelFileMatch (q : String) (m : ModelEntry) : Bool :=
  modelFn m == q || strContains (modelFn m) q

/-- The additive (non-exact, non-disqualified) part of `pick_model`'s
score: +400 filename substring, +300 name substring, +50 not installed. -/
def modelBaseScore (q : String) (m : ModelEntry) : Int :=
  (if q != "" && strContains (modelFn m) q then (400 : Int) else 0)
    + (if q != "" && strContains (modelNm m) q then (300 : Int) else 0)
    + (if !truthy m.installed then (50 : Int) else 0)

/-- `"." in q` in `pick_model` (`q` looks like a filename). -/
def looks_like_file (q : String) : Bool := q.data.contains ('.')

/-- The score `pick_model` assigns to one entry: 1000 for an exact
filename/name match; otherwise the additive score, overwritten by `-1`
when the query looks like a filename but the filename neither equals nor
contains it. -/
def modelScore (q : String) (m : ModelEntry) : Int :=
  if isExactModel q m then 1000
  else if looks_like_file q && !modelFileMatch q m then -1
  else modelBaseScore q m

/-- One step of the pickers' best-entry fold:
`if score > best_score: best, best_score = m, score`. -/
def best_pick_step (s : α → Int) (acc : Option α × Int) (m : α) : Option α × Int :=
  if acc.2 < s m then (some m, s m) else acc

/-- The pickers' shared fold, starting from `best, best_score = None, -1`. -/
def best_pick (s : α → Int) (catalog : List α) : Option α × Int :=
  catalog.foldl (best_pick_step s) (none, -1)

/-- `pick_node(catalog, query)`: best-scoring entry and its score, with
no acceptance floor. -/
def pick_node (catalog : List NodeEntry) (query : String) : Option NodeEntry × Int :=
  best_pick (nodeScore (normalize (some query))) catalog

/-- `pick_model(catalog, query)`: best-scoring entry, suppressed below
the 250 acceptance floor (`best if best_score >= 250 else None`), paired
with the raw best score. -/
def pick_model (catalog : List ModelEntry) (query : String) : Option ModelEntry × Int :=
  (if 250 ≤ (best_pick (modelScore (normalize (some query))) catalog).2 then
      (best_pick (modelScore (normalize (some query))) catalog).1
    else none,
   (best_pick (modelScore (normalize (some query))) catalog).2)

/-- The two keys of `/manager/queue/status` that `wait_queue_idle`
reads; `none` is an absent key. -/
structure QueueStatus where
  is_processing : Option JVal
  in_progress_count : Option JVal
deriving DecidableEq

/-- One parsed `/manager/queue/status` body is idle:
`not s.get("is_processing") and int(s.get("in_progress_count", 0)) == 0`.
A raising `int(...)` (the `except: pass` path) yields `false`. -/
def queue_status_idle (s : QueueStatus) : Bool :=
  !py_truthy_opt s.is_processing &&
    (match py_int (s.in_progress_count.getD (.jnum 0)) with
     | some n => n == 0
     | none => false)

/-- Generic polling loop: probe the responses in order, succeed at the
first accepted one, give up when the poll budget (`timeout_s / poll_s`)
is exhausted or no further response is ever accepted. -/
def poll_until (p : α → Bool) : List α → Nat → Bool
  | _, 0 => false
  | [], Nat.succ _ => false
  | a :: rest, Nat.succ b => if p a then true else poll_until p rest b

/-- One `/manager/queue/status` poll counts as idle: HTTP 200 and an
idle body (`none` models a body `json.loads` cannot parse). -/
def poll_idle (r : Nat × Option QueueStatus) : Bool :=
  r.1 == 200 &&
    (match r.2 with
     | some s => queue_status_idle s
     | none => false)

/-- `wait_queue_idle`: poll `/manager/queue/status` until an idle
response or the poll budget runs out (default 180s / 1.5s = 120 polls). -/
def wait_queue_idle (polls : List (Nat × Option QueueStatus)) (maxPolls : Nat) : Bool :=
  poll_until poll_idle polls maxPolls

/-- The membership test of `wait_model_installed`: some catalog entry has
this filename (case-insensitive) and a truthy `installed` flag. -/
def model_installed_in (cat : List ModelEntry) (filename : String) : Bool :=
  cat.any fun m =>
    (String.mk ((m.filename.getD ("")).data.map Char.toLower)
        == String.mk (filename.data.map Char.toLower))
      && truthy m.installed

/-- One catalog poll of `wait_model_installed` succeeds (`none` models a
raising `get_models_catalog`, swallowed by `except: pass`). -/
def catalog_poll_installed (filename : String) : Option (List ModelEntry) → Bool
  | some cat => model_installed_in cat filename
  | none => false

/-- `wait_model_installed`: poll the models catalog until the filename
appears installed or the budget runs out (600s / 1.5s = 400 polls at the
call site in `install_model_by_query`). -/
def wait_model_installed (polls : List (Option (List ModelEntry))) (filename : String)
    (maxPolls : Nat) : Bool :=
  poll_until (catalog_poll_installed filename) polls maxPolls

/-- The four status codes one iteration of `wait_for_comfy_ready`
observes: `/queue`, `/customnode/getlist`, `/externalmodel/getlist`,
`/model/getlist`. -/
structure ReadyProbe where
  code_q : Nat
  code_cn : Nat
  code_em : Nat
  code_m : Nat
deriving DecidableEq

/-- The success predicate of one readiness iteration:
`ok(code_q) and (ok(code_cn) or ok(code_em) or ok(code_m))`. -/
def ready_iter_ok (t : ReadyProbe) : Bool :=
  t.code_q == 200 && (t.code_cn == 200 || t.code_em == 200 || t.code_m == 200)

/-- `wait_for_comfy_ready`: iterate the four probes until one iteration
succeeds or the time budget (rendered as an iteration budget, the backoff
sleeps abstracted) runs out; the timeout path returns `false`. -/
def wait_for_comfy_ready (iters : List ReadyProbe) (budget : Nat) : Bool :=
  poll_until ready_iter_ok iters budget

/-- `code in (404, 409, 429, 500, 502, 503, 504)`: the transient set of
the enqueue retry loops. -/
def isTransient (c : Nat) : Bool :=
  c == 404 || c == 409 || c == 429 || c == 500 || c == 502 || c == 503 || c == 504

/-- Outcome of the shared enqueue retry loop of `install_node_by_query`
and `install_model_by_query`. -/
inductive EnqueueResult where
  | accepted : Nat → Nat → EnqueueResult
  | exhausted : Nat → EnqueueResult
  | hardError : Nat → String → EnqueueResult
deriving DecidableEq

/-- The `while attempts < 6` enqueue loop: `resp` maps the attempt index
to the POST response; 200 is `accepted (attempt number) (sleeps so far)`,
a transient code sleeps and retries, any other code raises
(`hardError code body`), and running out of attempts is `exhausted`
(the loop then returns `False`).  The fuel argument is the number of
attempts still allowed. -/
def enqueue_with_retry (resp : Nat → Nat × String) : Nat → Nat → Nat → EnqueueResult
  | _, sleeps, 0 => .exhausted sleeps
  | i, sleeps, Nat.succ fuel =>
    if (resp i).1 = 200 then .accepted (i + 1) sleeps
    else if isTransient (resp i).1 then enqueue_with_retry resp (i + 1) (sleeps + 1) fuel
    else .hardError (resp i).1 (resp i).2

/-- What an install operation observably does after its enqueue loop:
either a `RuntimeError` (`raised`) or a returned boolean. -/
inductive InstallOutcome where
  | returned : Bool → InstallOutcome
  | raised : Nat → String → InstallOutcome
deriving DecidableEq

/-- An install operation's run: whether `/manager/queue/start` was
issued, and the outcome. -/
structure InstallRun where
  startIssued : Bool
  outcome : InstallOutcome
deriving DecidableEq

/-- The enqueue-and-wait phase of `install_node_by_query` (after the
catalog pick): retry the enqueue POST up to 6 attempts; on 200 issue
`queue_start` and return `wait_queue_idle` with the default budget
(180s / 1.5s = 120 polls); on exhaustion return `False`; on a hard
error raise with the response body. -/
def install_node_by_query_queue_phase (resp : Nat → Nat × String)
    (polls : List (Nat × Option QueueStatus)) : InstallRun :=
  match enqueue_with_retry resp 0 0 6 with
  | .accepted _ _ => ⟨true, .returned (wait_queue_idle polls 120)⟩
  | .exhausted _ => ⟨false, .returned false⟩
  | .hardError c b => ⟨false, .raised c b⟩

/-- The enqueue-and-wait phase of `install_model_by_query`: same retry
loop, but on 200 it issues `queue_start` and then waits for the model to
appear installed in the catalog, `wait_model_installed(..., timeout_s=600)`
(600s / 1.5s = 400 polls). -/
def install_model_by_query_queue_phase (resp : Nat → Nat × String)
    (catalogPolls : List (Option (List ModelEntry))) (filename : String) : InstallRun :=
  match enqueue_with_retry resp 0 0 6 with
  | .accepted _ _ => ⟨true, .returned (wait_model_installed catalogPolls filename 400)⟩
  | .exhausted _ => ⟨false, .returned false⟩
  | .hardError c b => ⟨false, .raised c b⟩

/-- Modelled from claim C5's words, NOT from the source: the claimed
post-enqueue behaviour of the whitelisted-model install, namely polling
queue status until idle with the default 180s budget.  Kept only to be
compared against `install_model_by_query_queue_phase`, which is what the
source actually does. -/
def install_model_by_query_queue_phase_claimC5 (resp : Nat → Nat × String)
    (statusPolls : List (Nat × Option QueueStatus)) : InstallRun :=
  match enqueue_with_retry resp 0 0 6 with
  | .accepted _ _ => ⟨true, .returned (wait_queue_idle statusPolls 120)⟩
  | .exhausted _ => ⟨false, .returned false⟩
  | .hardError c b => ⟨false, .raised c b⟩

/-- The manager URL-install endpoints tried by
`install_nonwhitelisted_model_via_manager`. -/
def _INSTALL_URL_PATHS : List String :=
  ["/externalmodel/install_url", "/model/install_url",
   "/externalmodel/add_by_url", "/model/add_by_url"]

/-- The endpoint × payload loop of
`install_nonwhitelisted_model_via_manager`: `resp` maps the index of a
POST (in program order: 4 paths × 2 payload shapes) to its status code;
the first 200 issues `queue_start` and returns
`wait_queue_idle(..., timeout_s=900)` (900s / 1.5s = 600 polls); if no
POST returns 200 the function returns `False`. -/
def via_manager_go (resp : Nat → Nat) (polls : List (Nat × Option QueueStatus)) :
    Nat → Nat → InstallRun
  | _, 0 => ⟨false, .returned false⟩
  | i, Nat.succ n =>
    if resp i = 200 then ⟨true, .returned (wait_queue_idle polls 600)⟩
    else via_manager_go resp polls (i + 1) n

/-- `install_nonwhitelisted_model_via_manager`, over the 8 successive
POST attempts (4 endpoint paths × 2 payload shapes). -/
def install_nonwhitelisted_model_via_manager (resp : Nat → Nat)
    (polls : List (Nat × Option QueueStatus)) : InstallRun :=
  via_manager_go resp polls 0 (_INSTALL_URL_PATHS.length * 2)

/-- `install_nonwhitelisted_model`: try the manager path; only when it
returns `False` run the downloader-workflow fallback (its outcome
abstracted as `fallback`).  Result: (returned value, fallback attempted). -/
def install_nonwhitelisted_model (resp : Nat → Nat)
    (polls : List (Nat × Option QueueStatus)) (fallback : Bool) : Bool × Bool :=
  match (install_nonwhitelisted_model_via_manager resp polls).outcome with
  | .returned true => (true, false)
  | _ => (fallback, true)

/-- `code in (502, 503, 504)` in the reboot-request phase. -/
def reboot_gateway_code (c : Nat) : Bool := c == 502 || c == 503 || c == 504

/-- Outcome of the reboot-request phase of `reboot_comfy_cycle`:
accepted after some number of attempts, or the `ensure(...)`
`RuntimeError` carrying `last_err` after exhausting the attempts. -/
inductive RebootRequestResult where
  | accepted : Nat → RebootRequestResult
  | fatal : Option (Nat × String) → RebootRequestResult
deriving DecidableEq

/-- The `while attempts < 8 and not reboot_accepted` loop: 200 accepts;
502/503/504 are treated as accepted (proxy error while rebooting); any
other code records `last_err = code, body[:160]`, sleeps and retries;
fuel exhaustion is the fatal `ensure` failure with the last error. -/
def reboot_request_loop (resp : Nat → Nat × String) :
    Nat → Option (Nat × String) → Nat → RebootRequestResult
  | _, lastErr, 0 => .fatal lastErr
  | i, _, Nat.succ fuel =>
    if (resp i).1 = 200 then .accepted (i + 1)
    else if reboot_gateway_code (resp i).1 then .accepted (i + 1)
    else reboot_request_loop resp (i + 1) (some ((resp i).1, String.mk ((resp i).2.data.take 160))) fuel

/-- The reboot-request phase of `reboot_comfy_cycle` (max 8 attempts). -/
def reboot_comfy_cycle_request (resp : Nat → Nat × String) : RebootRequestResult :=
  reboot_request_loop resp 0 none 8

/-! ### Helper lemmas -/

/-- A transient code is never 200. -/
theorem transient_ne_200 (c : Nat) (h : isTransient c = true) : c ≠ 200 := by
  simp [isTransient] at h
  rcases h with h | h | h | h | h | h | h <;> omega

/-- A 200 response is accepted at once by the enqueue loop. -/
theorem enqueue_accept_of_200 (resp : Nat → Nat × String) (i s f : Nat)
    (h : (resp i).1 = 200) :
    enqueue_with_retry resp i s (f + 1) = .accepted (i + 1) s := by
  simp [enqueue_with_retry, h]

/-- A transient response makes the enqueue loop sleep once and retry. -/
theorem enqueue_retry_of_transient (resp : Nat → Nat × String) (i s f : Nat)
    (h : isTransient (resp i).1 = true) :
    enqueue_with_retry resp i s (f + 1) = enqueue_with_retry resp (i + 1) (s + 1) f := by
  simp [enqueue_with_retry, transient_ne_200 (resp i).1 h, h]

/-- A response that is neither 200 nor transient raises immediately. -/
theorem enqueue_hard_error (resp : Nat → Nat × String) (i s f : Nat)
    (h200 : (resp i).1 ≠ 200) (ht : isTransient (resp i).1 = false) :
    enqueue_with_retry resp i s (f + 1) = .hardError (resp i).1 (resp i).2 := by
  simp [enqueue_with_retry, h200, ht]

/-- If every available attempt meets a transient code, the enqueue loop
exhausts its fuel, sleeping once per attempt. -/
theorem enqueue_all_transient (resp : Nat → Nat × String) :
    ∀ f i s, (∀ j, j < f → isTransient (resp (i + j)).1 = true) →
      enqueue_with_retry resp i s f = .exhausted (s + f) := by
  intro f
  induction f with
  | zero => intro i s _; simp [enqueue_with_retry]
  | succ f ih =>
    intro i s h
    have h0 : isTransient (resp i).1 = true := h 0 (Nat.succ_pos f)
    rw [enqueue_retry_of_transient resp i s f h0]
    have h' : ∀ j, j < f → isTransient (resp (i + 1 + j)).1 = true := by
      intro j hj
      have e : i + 1 + j = i + (j + 1) := by omega
      rw [e]
      exact h (j + 1) (by omega)
    rw [ih (i + 1) (s + 1) h']
    have : s + 1 + f = s + (f + 1) := by omega
    rw [this]

/-- `poll_until` succeeds exactly when some response within the budget
satisfies the predicate. -/
theorem poll_until_iff (p : α → Bool) (d : α) :
    ∀ (l : List α) (b : Nat),
      poll_until p l b = true ↔ ∃ i, i < b ∧ i < l.length ∧ p (l.getD i d) = true := by
  intro l
  induction l with
  | nil =>
    intro b
    constructor
    · intro h; cases b <;> simp [poll_until] at h
    · rintro ⟨i, _, hlen, _⟩; simp at hlen
  | cons a t ih =>
    intro b
    cases b with
    | zero => simp [poll_until]
    | succ b' =>
      cases hpa : p a with
      | true =>
        constructor
        · intro _
          exact ⟨0, Nat.succ_pos b', by simp, by simpa using hpa⟩
        · intro _
          simp [poll_until, hpa]
      | false =>
        have hL : poll_until p (a :: t) (b' + 1) = poll_until p t b' := by
          simp [poll_until, hpa]
        rw [hL, ih b']
        constructor
        · rintro ⟨i, h1, h2, h3⟩
          exact ⟨i + 1, by omega, by simpa using h2, by simpa using h3⟩
        · rintro ⟨i, h1, h2, h3⟩
          cases i with
          | zero =>
            rw [List.getD_cons_zero] at h3
            rw [hpa] at h3
            exact absurd h3 (by simp)
          | succ j =>
            refine ⟨j, by omega, by simp at h2; omega, by simpa using h3⟩

/-- The pickers' fold: the result is the initial accumulator or one of
the entries with its score; the best score never decreases; and the best
score dominates every entry's score. -/
theorem best_pick_go (s : α → Int) (l : List α) :
    ∀ acc : Option α × Int,
      (l.foldl (best_pick_step s) acc = acc ∨
        ∃ m, m ∈ l ∧ l.foldl (best_pick_step s) acc = (some m, s m)) ∧
      acc.2 ≤ (l.foldl (best_pick_step s) acc).2 ∧
      ∀ m, m ∈ l → s m ≤ (l.foldl (best_pick_step s) acc).2 := by
  induction l with
  | nil =>
    intro acc
    exact ⟨Or.inl rfl, le_refl _, by intro m hm; cases hm⟩
  | cons a t ih =>
    intro acc
    have hfold : (a :: t).foldl (best_pick_step s) acc
        = t.foldl (best_pick_step s) (best_pick_step s acc a) := rfl
    obtain ⟨ih1, ih2, ih3⟩ := ih (best_pick_step s acc a)
    refine ⟨?_, ?_, ?_⟩
    · rw [hfold]
      rcases ih1 with h | ⟨m, hm, hme⟩
      · by_cases hc : acc.2 < s a
        · right
          exact ⟨a, List.mem_cons_self a t, by rw [h]; simp [best_pick_step, hc]⟩
        · left
          rw [h]; simp [best_pick_step, hc]
      · right
        exact ⟨m, List.mem_cons_of_mem a hm, hme⟩
    · rw [hfold]
      refine le_trans ?_ ih2
      by_cases hc : acc.2 < s a
      · simp [best_pick_step, hc]
        omega
      · simp [best_pick_step, hc]
    · intro m hm
      rw [hfold]
      rcases List.mem_cons.mp hm with rfl | hmt
      · refine le_trans ?_ ih2
        by_cases hc : acc.2 < s m
        · simp [best_pick_step, hc]
        · simp [best_pick_step, hc]
          omega
      · exact ih3 m hmt

/-- When no entry beats the accumulator, the pickers' fold returns the
accumulator unchanged. -/
theorem best_pick_stay (s : α → Int) (l : List α) :
    ∀ acc : Option α × Int, (∀ m, m ∈ l → s m ≤ acc.2) →
      l.foldl (best_pick_step s) acc = acc := by
  induction l with
  | nil => intro acc _; rfl
  | cons a t ih =>
    intro acc h
    have hstep : best_pick_step s acc a = acc := by
      have : ¬acc.2 < s a := not_lt.mpr (h a (List.mem_cons_self a t))
      simp [best_pick_step, this]
    have : (a :: t).foldl (best_pick_step s) acc
        = t.foldl (best_pick_step s) (best_pick_step s acc a) := rfl
    rw [this, hstep]
    exact ih acc fun m hm => h m (List.mem_cons_of_mem a hm)

/-- An exact id/title match scores at least 10000. -/
theorem nodeScore_exact_ge (q : String) (m : NodeEntry)
    (h : isExactNode q m = true) : 10000 ≤ nodeScore q m := by
  simp only [nodeScore, h, if_true]
  split <;> omega

/-- A non-exact entry scores at most 400 + 350 + 250 + 50 = 1050. -/
theorem nodeScore_nonexact_le (q : String) (m : NodeEntry)
    (h : isExactNode q m = false) : nodeScore q m ≤ 1050 := by
  simp only [nodeScore, h, Bool.false_eq_true, if_false]
  split_ifs <;> omega

/-- The dot-disqualification of `pick_model`: a filename-looking query
that the filename neither equals nor contains forces score `-1`, unless
the entry matches exactly on filename or name. -/
theorem modelScore_disqualified (q : String) (m : ModelEntry)
    (hdot : looks_like_file q = true)
    (hfn : (modelFn m == q) = false)
    (hcont : strContains (modelFn m) q = false)
    (hnm : (modelNm m == q) = false) :
    modelScore q m = -1 := by
  simp [modelScore, isExactModel, modelFileMatch, hdot, hfn, hcont, hnm]

/-- The manager-URL loop returns the queue-idle wait result as soon as
some POST within the remaining attempts returns 200. -/
theorem via_manager_go_200 (resp : Nat → Nat) (polls : List (Nat × Option QueueStatus)) :
    ∀ n i, (∃ j, j < n ∧ resp (i + j) = 200) →
      via_manager_go resp polls i n = ⟨true, .returned (wait_queue_idle polls 600)⟩ := by
  intro n
  induction n with
  | zero => rintro i ⟨j, hj, _⟩; omega
  | succ n ih =>
    rintro i ⟨j, hj, hj200⟩
    by_cases h0 : resp i = 200
    · simp [via_manager_go, h0]
    · have hstep : via_manager_go resp polls i (n + 1)
          = via_manager_go resp polls (i + 1) n := by
        simp [via_manager_go, h0]
      rw [hstep]
      apply ih
      cases j with
      | zero => exact absurd hj200 h0
      | succ j' =>
        have e : i + (j' + 1) = i + 1 + j' := by omega
        rw [e] at hj200
        exact ⟨j', by omega, hj200⟩

/-- The manager-URL loop returns `False` when no POST returns 200. -/
theorem via_manager_go_no200 (resp : Nat → Nat) (polls : List (Nat × Option QueueStatus)) :
    ∀ n i, (∀ j, j < n → resp (i + j) ≠ 200) →
      via_manager_go resp polls i n = ⟨false, .returned false⟩ := by
  intro n
  induction n with
  | zero => intro i _; rfl
  | succ n ih =>
    intro i h
    have h0 : resp i ≠ 200 := h 0 (Nat.succ_pos n)
    have hstep : via_manager_go resp polls i (n + 1)
        = via_manager_go resp polls (i + 1) n := by
      simp [via_manager_go, h0]
    rw [hstep]
    apply ih
    intro j hj
    have e : i + 1 + j = i + (j + 1) := by omega
    rw [e]
    exact h (j + 1) (by omega)

/-- If every response within the fuel is rejected (neither 200 nor a
gateway code), the reboot-request loop ends fatally carrying the last
response as `last_err`. -/
theorem reboot_all_reject (resp : Nat → Nat × String) :
    ∀ f i le, 0 < f →
      (∀ j, j < f → (resp (i + j)).1 ≠ 200 ∧ reboot_gateway_code (resp (i + j)).1 = false) →
      reboot_request_loop resp i le f
        = .fatal (some ((resp (i + f - 1)).1, String.mk ((resp (i + f - 1)).2.data.take 160))) := by
  intro f
  induction f with
  | zero => intro i le h; omega
  | succ f ih =>
    intro i le _ h
    obtain ⟨h0a, h0b⟩ := h 0 (Nat.succ_pos f)
    have h0a' : (resp i).1 ≠ 200 := by simpa using h0a
    have h0b' : reboot_gateway_code (resp i).1 = false := by simpa using h0b
    have hstep : reboot_request_loop resp i le (f + 1)
        = reboot_request_loop resp (i + 1)
            (some ((resp i).1, String.mk ((resp i).2.data.take 160))) f := by
      simp [reboot_request_loop, h0a', h0b']
    rw [hstep]
    cases Nat.eq_zero_or_pos f with
    | inl hf0 =>
      subst hf0
      rfl
    | inr hfpos =>
      have h' : ∀ j, j < f →
          (resp (i + 1 + j)).1 ≠ 200 ∧ reboot_gateway_code (resp (i + 1 + j)).1 = false := by
        intro j hj
        have e : i + 1 + j = i + (j + 1) := by omega
        rw [e]
        exact h (j + 1) (by omega)
      rw [ih (i + 1) (some ((resp i).1, String.mk ((resp i).2.data.take 160))) hfpos h']
      have e : i + 1 + f - 1 = i + (f + 1) - 1 := by omega
      rw [e]

/-! ### Claim theorems -/

/-- C1: in the enqueue retry loop of `install_node_by_query`, any status
in the transient set 404/409/429/500/502/503/504 sleeps once and
retries (up to 6 attempts); the response sequence [503, 503, 200] is
accepted on the third attempt after two sleeps; six transient responses
make the operation return `False` without raising; and a status that is
neither 200 nor transient stops immediately, raising with the response
body. -/
theorem claim_C1_enqueue_retry_policy :
    (∀ (resp : Nat → Nat × String) (i s f : Nat), isTransient (resp i).1 = true →
        enqueue_with_retry resp i s (f + 1) = enqueue_with_retry resp (i + 1) (s + 1) f) ∧
    enqueue_with_retry (fun i => if i < 2 then (503, "") else (200, "")) 0 0 6
      = .accepted 3 2 ∧
    (∀ (resp : Nat → Nat × String) (polls : List (Nat × Option QueueStatus)),
        (∀ j, j < 6 → isTransient (resp j).1 = true) →
        install_node_by_query_queue_phase resp polls = ⟨false, .returned false⟩) ∧
    (∀ (resp : Nat → Nat × String) (polls : List (Nat × Option QueueStatus)),
        (resp 0).1 ≠ 200 → isTransient (resp 0).1 = false →
        install_node_by_query_queue_phase resp polls
          = ⟨false, .raised (resp 0).1 (resp 0).2⟩) := by
  refine ⟨enqueue_retry_of_transient, rfl, ?_, ?_⟩
  · intro resp polls h
    have he : enqueue_with_retry resp 0 0 6 = .exhausted 6 := by
      have h6 := enqueue_all_transient resp 6 0 0 (fun j hj => by simpa using h j hj)
      simpa using h6
    simp [install_node_by_query_queue_phase, he]
  · intro resp polls h200 ht
    have he : enqueue_with_retry resp 0 0 6 = .hardError (resp 0).1 (resp 0).2 :=
      enqueue_hard_error resp 0 0 5 h200 ht
    simp [install_node_by_query_queue_phase, he]

/-- C1 witness: all-500 responses exhaust the six attempts and return
`False`; a 403 raises at once with the body. -/
theorem claim_C1_witness :
    install_node_by_query_queue_phase (fun _ => (500, "boom")) []
      = ⟨false, .returned false⟩ ∧
    install_node_by_query_queue_phase (fun _ => (403, "forbidden")) []
      = ⟨false, .raised 403 ("forbidden")⟩ := by
  constructor
  · exact claim_C1_enqueue_retry_policy.2.2.1 (fun _ => (500, "boom")) [] (fun j _ => rfl)
  · exact claim_C1_enqueue_retry_policy.2.2.2 (fun _ => (403, "forbidden")) []
      (by decide) (by decide)

/-- C2: `wait_queue_idle` treats a 200 response as idle exactly when the
Python condition holds; over boolean `is_processing` and integer
`in_progress_count` that is `is_processing = false ∧ in_progress_count = 0`;
in particular a processing body is never idle whatever the count field
holds, `{false, 0}` is idle, and `{false, 2}` is not. -/
theorem claim_C2_queue_idle_exactness :
    (∀ (s : QueueStatus) (b : Nat),
        wait_queue_idle [(200, some s)] (b + 1) = queue_status_idle s) ∧
    (∀ (p : Bool) (n : Int),
        queue_status_idle ⟨some (.jbool p), some (.jnum n)⟩ = (!p && (n == 0))) ∧
    (∀ c : Option JVal, queue_status_idle ⟨some (.jbool true), c⟩ = false) ∧
    queue_status_idle ⟨some (.jbool false), some (.jnum 0)⟩ = true ∧
    queue_status_idle ⟨some (.jbool false), some (.jnum 2)⟩ = false := by
  refine ⟨?_, fun p n => rfl, fun c => rfl, by decide, by decide⟩
  intro s b
  cases h : queue_status_idle s with
  | true => simp [wait_queue_idle, poll_until, poll_idle, h]
  | false => cases b <;> simp [wait_queue_idle, poll_until, poll_idle, h]

/-- C3 counterexample: for the query `"foo.bar"` (normalized form
contains a dot) and a one-entry catalog whose filename `"other"` neither
equals nor contains the query, `pick_model` still returns the entry,
because its `name` field equals the query exactly and the exact-match
branch (score 1000) bypasses the dot disqualifier. -/
theorem claim_C3_counterexample :
    looks_like_file (normalize (some ("foo.bar"))) = true ∧
    (modelFn ⟨some ("other"), some ("foo.bar"), .jnull⟩ == normalize (some ("foo.bar"))) = false ∧
    strContains (modelFn ⟨some ("other"), some ("foo.bar"), .jnull⟩)
      (normalize (some ("foo.bar"))) = false ∧
    250 ≤ modelScore (normalize (some ("foo.bar"))) ⟨some ("other"), some ("foo.bar"), .jnull⟩ ∧
    (pick_model [⟨some ("other"), some ("foo.bar"), .jnull⟩] ("foo.bar")).1
      = some ⟨some ("other"), some ("foo.bar"), .jnull⟩ :=
  ⟨by decide, by decide, by decide, by decide, by decide⟩

/-- C3 (amended): for every catalog and query whose normalized form
contains a literal dot, if no entry's normalized filename equals or
contains the query AND no entry's normalized name equals the query
exactly, then `pick_model` returns no entry (and raw best score -1). -/
theorem claim_C3_dot_disqualification_amended :
    ∀ (catalog : List ModelEntry) (query : String),
      looks_like_file (normalize (some query)) = true →
      (∀ m, m ∈ catalog →
        (modelFn m == normalize (some query)) = false ∧
        strContains (modelFn m) (normalize (some query)) = false ∧
        (modelNm m == normalize (some query)) = false) →
      (pick_model catalog query).1 = none ∧ (pick_model catalog query).2 = -1 := by
  intro catalog query hdot h
  have hs : ∀ m, m ∈ catalog → modelScore (normalize (some query)) m ≤ (-1 : Int) := by
    intro m hm
    obtain ⟨h1, h2, h3⟩ := h m hm
    rw [modelScore_disqualified (normalize (some query)) m hdot h1 h2 h3]
  have hbp : best_pick (modelScore (normalize (some query))) catalog
      = (none, -1) :=
    best_pick_stay (modelScore (normalize (some query))) catalog (none, -1) hs
  have hnot : ¬(250 ≤ ((-1 : Int))) := by norm_num
  constructor
  · simp [pick_model, hbp, hnot]
  · simp [pick_model, hbp]

/-- C3 amended witness: a dot query matching no filename and no exact
name yields no entry. -/
theorem claim_C3_amended_witness :
    (pick_model [⟨some ("other"), some ("unrelated"), .jnull⟩] ("foo.bar")).1 = none ∧
    (pick_model [⟨some ("other"), some ("unrelated"), .jnull⟩] ("foo.bar")).2 = -1 :=
  claim_C3_dot_disqualification_amended
    [⟨some ("other"), some ("unrelated"), .jnull⟩] ("foo.bar") (by decide) (by decide)

/-- C4 (amended): the downloader-workflow fallback of
`install_nonwhitelisted_model` runs exactly when the manager path
returns `False`, which happens either when every one of the 8
endpoint × payload POSTs fails (non-200), or when the first accepted
(200) POST's queue-idle wait times out; when some POST is accepted with
200 AND the subsequent queue-idle wait succeeds, the fallback is not
attempted. -/
theorem claim_C4_fallback_condition_amended :
    ∀ (resp : Nat → Nat) (polls : List (Nat × Option QueueStatus)) (fb : Bool),
      ((∀ j, j < 8 → resp j ≠ 200) →
        install_nonwhitelisted_model resp polls fb = (fb, true)) ∧
      ((∃ j, j < 8 ∧ resp j = 200) → wait_queue_idle polls 600 = true →
        install_nonwhitelisted_model resp polls fb = (true, false)) ∧
      ((∃ j, j < 8 ∧ resp j = 200) → wait_queue_idle polls 600 = false →
        install_nonwhitelisted_model resp polls fb = (fb, true)) := by
  intro resp polls fb
  refine ⟨?_, ?_, ?_⟩
  · intro h
    have hv : install_nonwhitelisted_model_via_manager resp polls
        = ⟨false, .returned false⟩ := by
      apply via_manager_go_no200
      intro j hj
      rw [Nat.zero_add]
      exact h j hj
    simp [install_nonwhitelisted_model, hv]
  · rintro ⟨j, hj, hj200⟩ hidle
    have hv : install_nonwhitelisted_model_via_manager resp polls
        = ⟨true, .returned (wait_queue_idle polls 600)⟩ := by
      apply via_manager_go_200
      exact ⟨j, hj, by rw [Nat.zero_add]; exact hj200⟩
    simp [install_nonwhitelisted_model, hv, hidle]
  · rintro ⟨j, hj, hj200⟩ hidle
    have hv : install_nonwhitelisted_model_via_manager resp polls
        = ⟨true, .returned (wait_queue_idle polls 600)⟩ := by
      apply via_manager_go_200
      exact ⟨j, hj, by rw [Nat.zero_add]; exact hj200⟩
    simp [install_nonwhitelisted_model, hv, hidle]

/-- C4 counterexample: every POST is accepted with 200, yet because the
queue-idle wait times out the manager path returns `False` and the
workflow fallback IS attempted — refuting the claim that a 200
acceptance prevents the fallback. -/
theorem claim_C4_counterexample :
    install_nonwhitelisted_model (fun _ => 200) [] false = (false, true) := rfl

/-- C4 amended witness: all POSTs fail with 404, so the fallback runs
and its result is returned. -/
theorem claim_C4_witness :
    install_nonwhitelisted_model (fun _ => 404) [] true = (true, true) :=
  (claim_C4_fallback_condition_amended (fun _ => 404) [] true).1
    (fun j _ => by show (404 : Nat) ≠ 200; omega)

/-- C5 (amended): after a successful enqueue (200) each install
operation issues the queue-start signal; the node install then polls
queue status with the default 180s budget (120 polls) and the
manager-URL install with a 900s budget (600 polls), each returning true
iff an idle status ({is_processing: false, in_progress_count: 0}) is
observed in time; the whitelisted-model install instead polls the model
catalog with a 600s budget (400 polls), returning true iff the target
filename appears installed in time. -/
theorem claim_C5_post_enqueue_amended :
    (∀ (resp : Nat → Nat × String) (polls : List (Nat × Option QueueStatus)) (a s : Nat),
        enqueue_with_retry resp 0 0 6 = .accepted a s →
        install_node_by_query_queue_phase resp polls
          = ⟨true, .returned (wait_queue_idle polls 120)⟩) ∧
    (∀ (resp : Nat → Nat × String) (catPolls : List (Option (List ModelEntry)))
        (fn : String) (a s : Nat),
        enqueue_with_retry resp 0 0 6 = .accepted a s →
        install_model_by_query_queue_phase resp catPolls fn
          = ⟨true, .returned (wait_model_installed catPolls fn 400)⟩) ∧
    (∀ (resp : Nat → Nat) (polls : List (Nat × Option QueueStatus)),
        (∃ j, j < 8 ∧ resp j = 200) →
        install_nonwhitelisted_model_via_manager resp polls
          = ⟨true, .returned (wait_queue_idle polls 600)⟩) ∧
    (∀ (polls : List (Nat × Option QueueStatus)) (b : Nat),
        wait_queue_idle polls b = true ↔
          ∃ i, i < b ∧ i < polls.length ∧ poll_idle (polls.getD i (0, none)) = true) ∧
    (∀ (catPolls : List (Option (List ModelEntry))) (fn : String) (b : Nat),
        wait_model_installed catPolls fn b = true ↔
          ∃ i, i < b ∧ i < catPolls.length ∧
            catalog_poll_installed fn (catPolls.getD i none) = true) := by
  refine ⟨?_, ?_, ?_, ?_, ?_⟩
  · intro resp polls a s h
    simp [install_node_by_query_queue_phase, h]
  · intro resp catPolls fn a s h
    simp [install_model_by_query_queue_phase, h]
  · rintro resp polls ⟨j, hj, hj200⟩
    apply via_manager_go_200
    exact ⟨j, hj, by rw [Nat.zero_add]; exact hj200⟩
  · intro polls b
    exact poll_until_iff poll_idle (0, none) polls b
  · intro catPolls fn b
    exact poll_until_iff (catalog_poll_installed fn) none catPolls b

/-- C5 witness: an immediately accepted enqueue starts the queue and
returns the queue-idle wait result. -/
theorem claim_C5_witness :
    install_node_by_query_queue_phase (fun _ => (200, "")) []
      = ⟨true, .returned (wait_queue_idle [] 120)⟩ :=
  claim_C5_post_enqueue_amended.1 (fun _ => (200, "")) [] 1 0 rfl

/-- C5 counterexample: with the queue status idle from the very first
poll, the claimed behaviour (poll queue status, 180s default) would
return true for the whitelisted-model install, but the source's
`install_model_by_query` polls the model catalog instead and returns
false when the filename never appears installed. -/
theorem claim_C5_counterexample :
    (install_model_by_query_queue_phase_claimC5 (fun _ => (200, ""))
        [(200, some ⟨none, none⟩)]).outcome = .returned true ∧
    (install_model_by_query_queue_phase (fun _ => (200, ""))
        [some []] ("f.safetensors")).outcome = .returned false := by
  constructor <;> rfl

/-- C6: an entry whose normalized id or title equals the normalized
query scores at least 10000, any non-exact entry scores at most
400 + 350 + 250 + 50 = 1050, and therefore whenever the catalog contains
an exact match, `pick_node` selects an exactly matching entry. -/
theorem claim_C6_exact_node_selection :
    (∀ (q : String) (m : NodeEntry), isExactNode q m = true → 10000 ≤ nodeScore q m) ∧
    (∀ (q : String) (m : NodeEntry), isExactNode q m = false → nodeScore q m ≤ 1050) ∧
    (∀ (catalog : List NodeEntry) (query : String),
        (∃ m, m ∈ catalog ∧ isExactNode (normalize (some query)) m = true) →
        ∃ p, (pick_node catalog query).1 = some p ∧
          isExactNode (normalize (some query)) p = true) := by
  refine ⟨nodeScore_exact_ge, nodeScore_nonexact_le, ?_⟩
  rintro catalog query ⟨m, hm, hex⟩
  obtain ⟨hwit, _, hmax⟩ :=
    best_pick_go (nodeScore (normalize (some query))) catalog (none, -1)
  have h10 : 10000 ≤
      (catalog.foldl (best_pick_step (nodeScore (normalize (some query)))) (none, -1)).2 :=
    le_trans (nodeScore_exact_ge _ m hex) (hmax m hm)
  rcases hwit with heq | ⟨p, _, hpe⟩
  · rw [heq] at h10
    norm_num at h10
  · have hr : pick_node catalog query
        = (some p, nodeScore (normalize (some query)) p) := hpe
    have hsc : nodeScore (normalize (some query)) p
        = (catalog.foldl (best_pick_step (nodeScore (normalize (some query)))) (none, -1)).2 := by
      rw [hpe]
    refine ⟨p, by rw [hr], ?_⟩
    by_contra hne
    simp only [Bool.not_eq_true] at hne
    have hle := nodeScore_nonexact_le _ p hne
    omega

/-- C6 witness: an exact id match is selected over a substring match. -/
theorem claim_C6_witness :
    ∃ p, (pick_node [⟨some ("pack-extras"), none, none, none, none, none, .jnull, .jnull⟩,
        ⟨some ("pack"), none, none, none, none, none, .jnull, .jnull⟩] ("pack")).1 = some p ∧
      isExactNode (normalize (some ("pack"))) p = true :=
  claim_C6_exact_node_selection.2.2
    [⟨some ("pack-extras"), none, none, none, none, none, .jnull, .jnull⟩,
      ⟨some ("pack"), none, none, none, none, none, .jnull, .jnull⟩] ("pack")
    ⟨⟨some ("pack"), none, none, none, none, none, .jnull, .jnull⟩, by decide, by decide⟩

/-- C7: `pick_model` suppresses the entry whenever the best score is
below the 250 acceptance floor, and at or above the floor returns a
best-scoring catalog entry (first-seen among maximal scores). -/
theorem claim_C7_model_floor :
    ∀ (catalog : List ModelEntry) (query : String),
      ((pick_model catalog query).2 < 250 → (pick_model catalog query).1 = none) ∧
      (250 ≤ (pick_model catalog query).2 →
        ∃ m, m ∈ catalog ∧ (pick_model catalog query).1 = some m ∧
          modelScore (normalize (some query)) m = (pick_model catalog query).2 ∧
          ∀ m', m' ∈ catalog →
            modelScore (normalize (some query)) m' ≤ (pick_model catalog query).2) := by
  intro catalog query
  obtain ⟨hwit, _, hmax⟩ :=
    best_pick_go (modelScore (normalize (some query))) catalog (none, -1)
  have h2 : (pick_model catalog query).2
      = (catalog.foldl (best_pick_step (modelScore (normalize (some query)))) (none, -1)).2 := rfl
  have h1 : (pick_model catalog query).1
      = (if 250 ≤ (best_pick (modelScore (normalize (some query))) catalog).2 then
          (best_pick (modelScore (normalize (some query))) catalog).1
        else none) := rfl
  constructor
  · intro hlt
    have hnot : ¬(250 ≤ (best_pick (modelScore (normalize (some query))) catalog).2) := by
      rw [h2] at hlt
      exact not_le.mpr hlt
    rw [h1, if_neg hnot]
  · intro hge
    rcases hwit with heq | ⟨m, hm, hme⟩
    · exfalso
      rw [h2, heq] at hge
      norm_num at hge
    · have hpos : 250 ≤ (best_pick (modelScore (normalize (some query))) catalog).2 := by
        rw [h2] at hge
        exact hge
      refine ⟨m, hm, ?_, ?_, ?_⟩
      · rw [h1, if_pos hpos]
        rw [show best_pick (modelScore (normalize (some query))) catalog
            = (some m, modelScore (normalize (some query)) m) from hme]
      · rw [h2, hme]
      · intro m' hm'
        rw [h2]
        exact hmax m' hm'

/-- C7 witness: an exact filename match scores 1000 ≥ 250 and is
returned as the maximal entry. -/
theorem claim_C7_witness :
    ∃ m, m ∈ [(⟨some ("model.safetensors"), some ("my model"), .jnull⟩ : ModelEntry)] ∧
      (pick_model [⟨some ("model.safetensors"), some ("my model"), .jnull⟩]
          ("model.safetensors")).1 = some m ∧
      modelScore (normalize (some ("model.safetensors"))) m
        = (pick_model [⟨some ("model.safetensors"), some ("my model"), .jnull⟩]
            ("model.safetensors")).2 ∧
      ∀ m', m' ∈ [(⟨some ("model.safetensors"), some ("my model"), .jnull⟩ : ModelEntry)] →
        modelScore (normalize (some ("model.safetensors"))) m'
          ≤ (pick_model [⟨some ("model.safetensors"), some ("my model"), .jnull⟩]
              ("model.safetensors")).2 :=
  (claim_C7_model_floor [⟨some ("model.safetensors"), some ("my model"), .jnull⟩]
    ("model.safetensors")).2 (by decide)

/-- C8: `wait_for_comfy_ready` returns true exactly when some polling
iteration within the budget has the mandatory `/queue` endpoint at 200
and at least one of the three catalog endpoints at 200; with no such
iteration it returns false (a total boolean, never an exception). -/
theorem claim_C8_ready_condition :
    ∀ (iters : List ReadyProbe) (b : Nat),
      wait_for_comfy_ready iters b = true ↔
        ∃ i, i < b ∧ i < iters.length ∧
          ((iters.getD i ⟨0, 0, 0, 0⟩).code_q = 200 ∧
            ((iters.getD i ⟨0, 0, 0, 0⟩).code_cn = 200 ∨
              (iters.getD i ⟨0, 0, 0, 0⟩).code_em = 200 ∨
              (iters.getD i ⟨0, 0, 0, 0⟩).code_m = 200)) := by
  intro iters b
  unfold wait_for_comfy_ready
  rw [poll_until_iff ready_iter_ok ⟨0, 0, 0, 0⟩ iters b]
  constructor
  · rintro ⟨i, h1, h2, h3⟩
    refine ⟨i, h1, h2, ?_⟩
    simp only [ready_iter_ok, Bool.and_eq_true, Bool.or_eq_true, beq_iff_eq] at h3
    tauto
  · rintro ⟨i, h1, h2, h3⟩
    refine ⟨i, h1, h2, ?_⟩
    simp only [ready_iter_ok, Bool.and_eq_true, Bool.or_eq_true, beq_iff_eq]
    tauto

/-- C8 witness: queue 200 plus one catalog 200 on the first iteration. -/
theorem claim_C8_witness :
    wait_for_comfy_ready [⟨200, 404, 200, 502⟩] 5 = true :=
  (claim_C8_ready_condition [⟨200, 404, 200, 502⟩] 5).mpr
    ⟨0, by omega, by simp, by decide⟩

/-- C9: in the reboot-request phase, a 200 or a gateway code
502/503/504 is accepted (the cycle proceeds); any other status records
`last_err` and retries with backoff; and 8 rejected responses exhaust
the attempts and raise the fatal error carrying the last response. -/
theorem claim_C9_reboot_request_phase :
    (∀ (resp : Nat → Nat × String) (i : Nat) (le : Option (Nat × String)) (f : Nat),
        (resp i).1 = 200 →
        reboot_request_loop resp i le (f + 1) = .accepted (i + 1)) ∧
    (∀ (resp : Nat → Nat × String) (i : Nat) (le : Option (Nat × String)) (f : Nat),
        reboot_gateway_code (resp i).1 = true →
        reboot_request_loop resp i le (f + 1) = .accepted (i + 1)) ∧
    (∀ (resp : Nat → Nat × String) (i : Nat) (le : Option (Nat × String)) (f : Nat),
        (resp i).1 ≠ 200 → reboot_gateway_code (resp i).1 = false →
        reboot_request_loop resp i le (f + 1)
          = reboot_request_loop resp (i + 1)
              (some ((resp i).1, String.mk ((resp i).2.data.take 160))) f) ∧
    (∀ resp : Nat → Nat × String,
        (∀ j, j < 8 → (resp j).1 ≠ 200 ∧ reboot_gateway_code (resp j).1 = false) →
        reboot_comfy_cycle_request resp
          = .fatal (some ((resp 7).1, String.mk ((resp 7).2.data.take 160)))) := by
  refine ⟨?_, ?_, ?_, ?_⟩
  · intro resp i le f h
    simp [reboot_request_loop, h]
  · intro resp i le f h
    by_cases h200 : (resp i).1 = 200
    · simp [reboot_request_loop, h200]
    · simp [reboot_request_loop, h200, h]
  · intro resp i le f h200 hgw
    simp [reboot_request_loop, h200, hgw]
  · intro resp h
    have hr := reboot_all_reject resp 8 0 none (by omega) (fun j hj => by simpa using h j hj)
    simpa using hr

/-- C9 witness: eight 418 responses end in the fatal error carrying the
last response. -/
theorem claim_C9_witness :
    reboot_comfy_cycle_request (fun _ => (418, "teapot"))
      = .fatal (some (418, String.mk (("teapot").data.take 160))) :=
  claim_C9_reboot_request_phase.2.2.2 (fun _ => (418, "teapot"))
    (fun j _ => ⟨by show (418 : Nat) ≠ 200; omega, rfl⟩)

/-- C10 (implicit): a 200 response whose JSON object carries neither
`is_processing` nor `in_progress_count` is classified idle — the missing
processing flag is falsy and the missing count defaults to 0 — so
`wait_queue_idle` returns true on it. -/
theorem claim_C10_missing_fields_idle :
    queue_status_idle ⟨none, none⟩ = true ∧
    wait_queue_idle [(200, some ⟨none, none⟩)] 120 = true :=
  ⟨rfl, rfl⟩

end Comput3Setup
